import Mathlib

/-!
# Verification of the hover-preview popover engine

Shallow embedding of the client-side popover subsystem (the mouse-enter
handler, the popover depth stack, the hide-timer registry, the listener
attachment tracker and the navigation teardown) of the `second-brain`
repository, together with proofs of the specification's claims about it.

The source is a browser module; the embedding makes the shared mutable
module state (`activeAnchor`, `activePopoverStack`, `hideTimeouts`,
`popoverListenersAttached`) and the document explicit as one state record
threaded through the handlers.  JavaScript numbers that can be `NaN` are
modelled by `JsNum`; exceptions escaping a handler are modelled by an
explicit error component carrying the state at the point of the throw.
-/

namespace Popover

/-- A JavaScript number as the depth computations use it: either `NaN`
(produced by `parseInt` on a non-numeric string) or an integer.  All depth
arithmetic in the source stays integral. -/
inductive JsNum where
  | nan : JsNum
  | int : Int → JsNum
deriving DecidableEq, Repr

/-- JS `+` on numbers: `NaN` propagates. -/
def jsAdd : JsNum → JsNum → JsNum
  | .int a, .int b => .int (a + b)
  | _, _ => .nan

/-- JS `>=` on numbers: every comparison with `NaN` is false. -/
def jsGe : JsNum → JsNum → Bool
  | .int a, .int b => decide (b ≤ a)
  | _, _ => false

/-- The leading decimal digits of a character list. -/
def leadDigits (cs : List Char) : List Char := cs.takeWhile (fun c => c.isDigit)

/-- Value of a digit list read in base 10. -/
def digitsToNat (cs : List Char) : Nat := cs.foldl (fun a c => a * 10 + (c.toNat - 48)) 0

/-- JS `parseInt` on a decimal string: skip leading whitespace, an optional
sign, then the longest digit run; no digits means `NaN` (here `none`).  The
source calls `parseInt(s)` and `parseInt(s, 10)`; on the decimal strings the
module itself writes into `dataset.depth` (and on non-numeric garbage) the
two agree, and the radix-16 autodetection of bare `parseInt` on `"0x…"`
inputs is outside the modelled input space. -/
def parseIntJs (s : String) : Option Int :=
  let cs := s.data.dropWhile (fun c => c.isWhitespace)
  match cs with
  | '-' :: rest =>
    let ds := leadDigits rest
    if ds.isEmpty then none else some (-(digitsToNat ds : Int))
  | '+' :: rest =>
    let ds := leadDigits rest
    if ds.isEmpty then none else some ((digitsToNat ds : Int))
  | _ =>
    let ds := leadDigits cs
    if ds.isEmpty then none else some ((digitsToNat ds : Int))

/-- `parseInt` as a `JsNum`: `none` becomes `NaN`. -/
def parseIntToJs (s : String) : JsNum :=
  match parseIntJs s with
  | none => .nan
  | some n => .int n

/-- JS `x || d` on an optional string: an absent value and the empty string
are falsy and yield the default. -/
def jsOrStr : Option String → String → String
  | none, d => d
  | some s, d => if s = "" then d else s

/-- JS `String.split` with a one-character separator, as the handler uses it
on `Content-Type` values (`split(";")`, `split("/")`): splitting the empty
string yields `[""]`.  (Defined structurally so concrete instances evaluate
inside proofs.) -/
def jsSplit (s : String) (sep : Char) : List String :=
  (s.data.foldr (fun c acc =>
      if c = sep then [] :: acc
      else
        match acc with
        | a :: rest => (c :: a) :: rest
        | [] => [[c]]) [[]]).map List.asString

/-- A URL reference found in fetched content: relative or already absolute. -/
inductive UrlRef where
  | rel : String → UrlRef
  | abs : String → UrlRef
deriving DecidableEq, Repr

/-- The parts of `new URL(link.href)` the handler reads. -/
structure Url where
  pathname : String
  search : String
  hash : String
deriving DecidableEq, Repr

/-- The URL as a string (`url.toString()`), origin omitted: by the time the
source stringifies `targetUrl` its hash and search have been cleared, so the
path is what distinguishes it. -/
def Url.render (u : Url) : String := u.pathname ++ u.search ++ u.hash

/-- An element of fetched (or injected) popover content: tag, `id`
attribute, class list, one URL-bearing attribute (`href`/`src`), its layout
offset inside the scroll container, and, for internal anchors, the identity
used by the listener tracker.  Purely presentational attributes the source
also sets (`img.alt`) are not modelled. -/
structure HtmlEl where
  tag : String
  idAttr : Option String
  classes : List String
  url : Option UrlRef
  offsetTop : Int
  linkId : Option Nat
deriving DecidableEq, Repr

/-- Modelled from the spec: `normalizeRelativeURLs` (imported from
`util/path`, which is not among the staged sources) "rewrites all relative
URLs against the target URL".  A relative reference is resolved against the
directory of the base path; absolute references are untouched. -/
def resolveRef (base : Url) (r : UrlRef) : UrlRef :=
  match r with
  | .rel s => .abs ((base.pathname.data.reverse.dropWhile (fun c => c ≠ '/')).reverse.asString ++ s)
  | .abs s => .abs s

/-- Modelled from the spec (see `resolveRef`): rewrite every URL reference
of the parsed document against the target URL. -/
def normalizeRelativeURLs (doc : List HtmlEl) (base : Url) : List HtmlEl :=
  doc.map (fun el => { el with url := el.url.map (resolveRef base) })

/-- `html.querySelectorAll("[id]").forEach(el => el.id = popover-internal-…)`:
every element that has an id gets it namespaced. -/
def namespaceIds (doc : List HtmlEl) : List HtmlEl :=
  doc.map (fun el =>
    match el.idAttr with
    | some i => { el with idAttr := some ("popover-internal-" ++ i) }
    | none => el)

/-- `[...html.getElementsByClassName("popover-hint")]`. -/
def hintElements (doc : List HtmlEl) : List HtmlEl :=
  doc.filter (fun el => el.classes.contains "popover-hint")

/-- The `popover-inner` div: its `data-content-type`, scroll position and
children. -/
structure Inner where
  contentType : Option String
  scrollTop : Int
  children : List HtmlEl
deriving DecidableEq, Repr

/-- A document element as the module reads and writes it: its id, class
list, `data-depth` attribute, `z-index`, and for popover elements the inner
container.  Ancestors of a hovered link are values of this type too. -/
structure Elem where
  id : String
  classes : List String
  depthAttr : Option String
  zIndex : Option Int
  inner : Inner
deriving DecidableEq, Repr

/-- The module's shared mutable state plus the document. `doc` is the list
of (popover-bearing) elements of `document.body` in insertion order;
`stack` is `activePopoverStack` with JS array holes as `none`;
`hideTimeouts` is the depth-keyed timeout `Map`; `liveTimers` are the
timeouts that have been scheduled and neither cleared nor fired (the ids
`clearTimeout` can still act on); `attached` is `popoverListenersAttached`;
`posRequests` records each `setPosition` request issued to the geometry
service. -/
structure PState where
  doc : List Elem
  activeAnchor : Option Nat
  stack : List (Option String)
  hideTimeouts : List (Nat × Nat)
  liveTimers : List (Nat × Nat)
  nextTimerId : Nat
  attached : List (String × List Nat)
  posRequests : List String
deriving DecidableEq, Repr

/-- `document.getElementById`: the first element with the id. -/
def getElementById (doc : List Elem) (i : String) : Option Elem :=
  doc.find? (fun e => e.id == i)

/-- Mutate the element with the given id in place. -/
def updateElem (doc : List Elem) (i : String) (f : Elem → Elem) : List Elem :=
  doc.map (fun e => if e.id == i then f e else e)

/-- `classList.add`: append the token when absent. -/
def addClass (cs : List String) (c : String) : List String :=
  if cs.contains c then cs else cs ++ [c]

/-- `classList.remove`: drop the token. -/
def removeClass (cs : List String) (c : String) : List String :=
  cs.filter (fun x => x ≠ c)

/-- JS `arr.length = n` on an array of possibly-holed entries: shorten, or
extend with holes. -/
def setLength (l : List (Option α)) (n : Nat) : List (Option α) :=
  l.take n ++ List.replicate (n - l.length) (none : Option α)

/-- JS `arr[i] = v`: extend with holes as needed, then write slot `i`. -/
def stackSet (l : List (Option String)) (i : Nat) (v : String) : List (Option String) :=
  (setLength l (max l.length (i + 1))).set i (some v)

/-- JS `arr[i]`: a read past the length or at a hole is `undefined`. -/
def stackGet (l : List (Option String)) (i : Nat) : Option String :=
  (l[i]?).getD none

/-- An exception escaping a handler. `referenceError` is the temporal dead
zone: a `const` read before its declaration has executed.  `rangeError` is
`arr.length = n` for an invalid `n`.  `typeError` is a member access on
`null`. -/
inductive JsErr where
  | referenceError : JsErr
  | rangeError : JsErr
  | typeError : JsErr
deriving DecidableEq, Repr

/-- `MAX_POPOVER_DEPTH`. -/
def MAX_POPOVER_DEPTH : Int := 3

/-- `ANIMATION_DELAY + ANIMATION_DURATION + MOUSE_MOVEMENT_BUFFER`. -/
def TOTAL_HIDE_DELAY : Nat := 200 + 300 + 200

/-- The per-element effect of the `clearDeeperPopovers` loop: an element
whose id one of the cleared stack entries references loses the
`active-popover` class; every other element is untouched. -/
def clearElem (ids : List String) (e : Elem) : Elem :=
  if ids.contains e.id then { e with classes := removeClass e.classes "active-popover" } else e

/-- `clearDeeperPopovers(keepDepth)`: every recorded (non-hole) stack entry
at an index `≥ keepDepth` has the `active-popover` class removed from its
element, then `activePopoverStack.length = keepDepth` (which shortens the
stack, or extends it with holes when `keepDepth` exceeds its length). -/
def clearDeeperPopovers (s : PState) (keepDepth : Nat) : PState :=
  let ids := (s.stack.drop keepDepth).filterMap id
  { s with
    doc := s.doc.map (clearElem ids),
    stack := setLength s.stack keepDepth }

/-- The lookup of a depth-keyed `Map`. -/
def lookupDepth (m : List (Nat × Nat)) (d : Nat) : Option Nat :=
  (m.find? (fun p => p.1 == d)).map (fun p => p.2)

/-- `Map.set` on the depth-keyed timeout registry: replace the entry for the
key (a `Map` holds at most one entry per key), or append a fresh one. -/
def mapSet : List (Nat × Nat) → Nat → Nat → List (Nat × Nat)
  | [], k, v => [(k, v)]
  | p :: rest, k, v => if p.1 = k then (k, v) :: rest else p :: mapSet rest k v

/-- `scheduleHideAtDepth(depth)`: `clearTimeout` on the timeout already
registered at this depth, if any (it leaves the live set and can never
fire), then register a fresh timeout id for this depth.  The timeout's
callback is modelled by `fireHideTimer`. -/
def scheduleHideAtDepth (s : PState) (depth : Nat) : PState :=
  let live1 :=
    match lookupDepth s.hideTimeouts depth with
    | some tid => s.liveTimers.filter (fun t => t.1 ≠ tid)
    | none => s.liveTimers
  { s with
    liveTimers := live1 ++ [(s.nextTimerId, depth)],
    hideTimeouts := mapSet s.hideTimeouts depth s.nextTimerId,
    nextTimerId := s.nextTimerId + 1 }

/-- The callback a hide timeout runs when it fires (it can only fire while
still live): `clearDeeperPopovers(depth)` for the depth captured at
scheduling, then `hideTimeouts.delete(depth)`; the fired timer is no longer
live. -/
def fireHideTimer (s : PState) (tid : Nat) : PState :=
  match s.liveTimers.find? (fun t => t.1 == tid) with
  | none => s
  | some t =>
    let s1 := clearDeeperPopovers s t.2
    { s1 with
      hideTimeouts := s1.hideTimeouts.filter (fun p => p.1 ≠ t.2),
      liveTimers := s1.liveTimers.filter (fun p => p.1 ≠ tid) }

/-- `cancelHideTimeoutsFromDepth(depth)`: every registry entry whose depth
compares `>=` the given one (false for `NaN`) is `clearTimeout`-ed and
deleted. -/
def cancelHideTimeoutsFromDepth (s : PState) (depth : JsNum) : PState :=
  let cancelled := s.hideTimeouts.filter (fun p => jsGe (.int p.1) depth)
  { s with
    hideTimeouts := s.hideTimeouts.filter (fun p => !(jsGe (.int p.1) depth)),
    liveTimers := s.liveTimers.filter (fun t => !(cancelled.any (fun c => c.2 == t.1))) }

/-- `getCurrentPopoverDepth(link)`: walk the ancestry for the first element
with the `popover` class; its `data-depth` (absent or empty falls back to
`"0"`) is `parseInt`-ed — with no `NaN` guard — and incremented.  No popover
ancestor means depth 0. -/
def getCurrentPopoverDepth (ancestors : List Elem) : JsNum :=
  match ancestors.find? (fun p => p.classes.contains "popover") with
  | some parent => jsAdd (parseIntToJs (jsOrStr parent.depthAttr "0")) (.int 1)
  | none => .int 0

/-- `getPopoverDepth(popover)`: absent or empty `data-depth` is 0, and —
unlike `getCurrentPopoverDepth` — a `NaN` parse is guarded to 0. -/
def getPopoverDepth (e : Elem) : Int :=
  match e.depthAttr with
  | none => 0
  | some str =>
    if str = "" then 0
    else
      match parseIntJs str with
      | none => 0
      | some d => d

/-- The internal anchors (`a.internal`) inside a popover's content that the
listener tracker can key on. -/
def internalLinksOf (e : Elem) : List Nat :=
  (e.inner.children.filter (fun c => c.tag == "a" && c.classes.contains "internal")).filterMap
    (fun c => c.linkId)

/-- `attachPopoverListeners(popoverElement)`: get or create the attached set
for this popover, then wire `mouseenter` on every internal link not already
in the set and record it.  The observable effect of a wired listener is
membership in the set. -/
def attachPopoverListeners (s : PState) (elemId : String) : PState :=
  match getElementById s.doc elemId with
  | none => s
  | some e =>
    let links := internalLinksOf e
    let prev := ((s.attached.find? (fun p => p.1 == elemId)).map (fun p => p.2)).getD []
    let fresh := links.filter (fun l => !(prev.contains l))
    { s with
      attached :=
        if s.attached.any (fun p => p.1 == elemId) then
          s.attached.map (fun p => if p.1 == elemId then (elemId, prev ++ fresh) else p)
        else s.attached ++ [(elemId, prev ++ fresh)] }

/-- The target of the intra-popover scroll: `#popover-internal-` plus the
hash with its leading `#` sliced off. -/
def scrollTargetId (hash : String) : String :=
  "popover-internal-" ++ (hash.drop 1)

/-- `popoverInner.scroll({top: heading.offsetTop - 12, behavior: "instant"})`
when the prefixed heading exists inside the inner container: an instant
scroll with a 12px buffer. -/
def scrollToHeading (s : PState) (elemId : String) (hash : String) : PState :=
  { s with
    doc := s.doc.map (fun e =>
      if e.id == elemId then
        match e.inner.children.find? (fun c => c.idAttr == some (scrollTargetId hash)) with
        | some heading => { e with inner := { e.inner with scrollTop := heading.offsetTop - 12 } }
        | none => e
      else e) }

/-- `showPopover(popoverElement, depth)`: clear deeper popovers, add the
`active-popover` class, write `data-depth` and the depth-derived `z-index`,
issue the `setPosition` request, write the element into the stack slot, and
finally, for a non-empty hash, scroll the inner container to the prefixed
heading.  `innerInitialized` tells whether the `const popoverInner`
declaration has executed at the call site: on the element-reuse path it has
not, so evaluating `popoverInner` there is a temporal-dead-zone
`ReferenceError`.  A `NaN` (or negative) depth makes
`activePopoverStack.length = depth` throw a `RangeError`. -/
def showPopover (s : PState) (elemId : String) (depth : JsNum) (hash : String)
    (innerInitialized : Bool) : PState × Option JsErr :=
  match depth with
  | .nan => (s, some .rangeError)
  | .int k =>
    if k < 0 then (clearDeeperPopovers s 0, some .rangeError)
    else
      let d := k.toNat
      let s1 := clearDeeperPopovers s d
      let s2 := { s1 with
        doc := updateElem s1.doc elemId (fun e =>
          { e with
            classes := addClass e.classes "active-popover",
            depthAttr := some (toString d),
            zIndex := some (999 + (d : Int) * 10) }) }
      let s3 := { s2 with posRequests := s2.posRequests ++ [elemId] }
      let s4 := { s3 with stack := stackSet s3.stack d elemId }
      if hash = "" then (s4, none)
      else if innerInitialized then (scrollToHeading s4 elemId hash, none)
      else (s4, some JsErr.referenceError)

/-- The hovered link as the handler reads it: its element identity (what
`activeAnchor !== this` compares), the parts of its `href`, and the
`data-no-popover` opt-out.  The `hash` field carries the
`decodeURIComponent`-ed fragment. -/
structure Anchor where
  linkId : Nat
  pathname : String
  search : String
  hash : String
  noPopover : Bool
deriving DecidableEq, Repr

/-- How the synchronous prefix of `mouseEnterHandler` (everything up to the
`await fetchCanonical`) ends: the handler returned, an exception escaped, or
the fetch of `targetUrl` was started with the listed values captured in the
handler's scope. -/
inductive SyncResult where
  | done : PState → SyncResult
  | thrown : PState → JsErr → SyncResult
  | fetch : PState → String → Url → String → JsNum → SyncResult
deriving DecidableEq, Repr

/-- The state a `SyncResult` leaves behind. -/
def SyncResult.state : SyncResult → PState
  | .done s => s
  | .thrown s _ => s
  | .fetch s _ _ _ _ => s

/-- The synchronous prefix of `mouseEnterHandler`, in source order: record
the link as `activeAnchor`; stop if it opts out; compute the nesting depth
from the ancestry and cancel the hide timeouts at that depth and deeper;
stop at `MAX_POPOVER_DEPTH`; build `targetUrl` (hash and search cleared) and
the path-keyed popover id; if an element with that id already exists, show
it at the current depth and re-attach its listeners — on this path the
`const popoverInner` of the fetch path has not executed, so a non-empty hash
throws — otherwise start the fetch.  `ancestors` is the link's ancestor
chain at hover time, nearest first. -/
def mouseEnterHandlerSync (s0 : PState) (link : Anchor) (ancestors : List Elem) : SyncResult :=
  let s1 := { s0 with activeAnchor := some link.linkId }
  if link.noPopover then .done s1
  else
    let currentDepth := getCurrentPopoverDepth ancestors
    let s2 := cancelHideTimeoutsFromDepth s1 currentDepth
    if jsGe currentDepth (.int MAX_POPOVER_DEPTH) then .done s2
    else
      let targetUrl : Url := { pathname := link.pathname, search := "", hash := "" }
      let hash := link.hash
      let popoverId := "popover-" ++ link.pathname
      match getElementById s2.doc popoverId with
      | some _ =>
        let r := showPopover s2 popoverId currentDepth hash false
        match r.2 with
        | some e => .thrown r.1 e
        | none => .done (attachPopoverListeners r.1 popoverId)
      | none => .fetch s2 popoverId targetUrl hash currentDepth

/-- A fetched response as the handler reads it: the `Content-Type` header
(`headers.get` may be `null`) and the body as the `DOMParser` would parse it
(the browser's HTML parser is external; its output element list stands for
the body). -/
structure Response where
  contentTypeHeader : Option String
  body : List HtmlEl
deriving DecidableEq, Repr

/-- The `img` element built for an `image/*` response. -/
def imgElement (targetUrl : Url) : HtmlEl :=
  { tag := "img", idAttr := none, classes := [], url := some (.abs targetUrl.render),
    offsetTop := 0, linkId := none }

/-- The `iframe` element built for an `application/pdf` response. -/
def iframeElement (targetUrl : Url) : HtmlEl :=
  { tag := "iframe", idAttr := none, classes := [], url := some (.abs targetUrl.render),
    offsetTop := 0, linkId := none }

/-- What the content-type `switch` leaves in `popoverInner`: `abort` is the
`return` of the default branch when the parsed document has no
`popover-hint` element; otherwise the children appended to the inner
container (empty for an `application/*` subtype other than `pdf`, whose
inner `switch` falls through appending nothing). -/
inductive DispatchResult where
  | abort : DispatchResult
  | content : List HtmlEl → DispatchResult
deriving DecidableEq, Repr

/-- The content-type `switch` of `mouseEnterHandler`: the category is the
part of the content type before `/`.  `image` renders an `img`;
`application` renders an `iframe` only for `pdf` and otherwise nothing; any
other category parses the body as HTML, rewrites its relative URLs against
the target URL, namespaces every element id, and keeps exactly the
`popover-hint` elements, aborting if there are none. -/
def dispatchContent (contentType : String) (body : List HtmlEl) (targetUrl : Url) :
    DispatchResult :=
  let parts := jsSplit contentType '/'
  let category := parts.headD ""
  let typeInfo := parts.get? 1
  if category = "image" then .content [imgElement targetUrl]
  else if category = "application" then
    match typeInfo with
    | some "pdf" => .content [iframeElement targetUrl]
    | _ => .content []
  else
    let html := normalizeRelativeURLs body targetUrl
    let html := namespaceIds html
    let elts := hintElements html
    if elts.isEmpty then .abort else .content elts

/-- How the resumed handler ends. -/
inductive ResumeResult where
  | done : PState → ResumeResult
  | thrown : PState → JsErr → ResumeResult
deriving DecidableEq, Repr

/-- The state a `ResumeResult` leaves behind. -/
def ResumeResult.state : ResumeResult → PState
  | .done s => s
  | .thrown s _ => s

/-- The rest of `mouseEnterHandler` once the fetch settles, with `sr` the
module state at that time (the only state reads below — the duplicate check
and the `activeAnchor` comparison — happen after the last `await`, so one
resume state is exact).  A rejected fetch is logged and the handler returns.
A missing `Content-Type` header makes the non-null assertion's `.split`
throw.  After the content `switch`, the new element (id, `popover` class,
inner with the `data-content-type` and the dispatched children) is built;
if an element with this id has appeared meanwhile the handler returns
without touching the document; otherwise the element is appended to
`document.body` first, and only then is `activeAnchor` compared against the
hovering link — a stale anchor returns with the hidden element left in the
document.  A current anchor shows the popover (the `const popoverInner` has
executed on this path) and attaches its listeners. -/
def mouseEnterHandlerResume (sr : PState) (link : Anchor) (popoverId : String)
    (targetUrl : Url) (hash : String) (depth : JsNum) (fetchResult : Option Response) :
    ResumeResult :=
  match fetchResult with
  | none => .done sr
  | some response =>
    match response.contentTypeHeader with
    | none => .thrown sr .typeError
    | some header =>
      let contentType := (jsSplit header ';').headD ""
      match dispatchContent contentType response.body targetUrl with
      | .abort => .done sr
      | .content children =>
        let popoverElement : Elem :=
          { id := popoverId, classes := ["popover"], depthAttr := none, zIndex := none,
            inner := { contentType := some contentType, scrollTop := 0, children := children } }
        if (getElementById sr.doc popoverId).isSome then .done sr
        else
          let s1 := { sr with doc := sr.doc ++ [popoverElement] }
          if sr.activeAnchor ≠ some link.linkId then .done s1
          else
            let r := showPopover s1 popoverId depth hash true
            match r.2 with
            | some e => .thrown r.1 e
            | none => .done (attachPopoverListeners r.1 popoverId)

/-- The popover element's own `mouseenter` listener: re-read its
`data-depth` (absent or empty falls back to `"0"`, `parseInt` with no `NaN`
guard) and cancel the hide timeouts at that depth and deeper. -/
def popoverMouseEnter (s : PState) (elemId : String) : PState :=
  match getElementById s.doc elemId with
  | none => s
  | some e => cancelHideTimeoutsFromDepth s (parseIntToJs (jsOrStr e.depthAttr "0"))

/-- The navigation cleanup registered by the `nav` listener: every element
with the `popover` class has its tracked links' listeners removed and is
removed from the document, the stack is emptied, `activeAnchor` cleared,
and every registered hide timeout `clearTimeout`-ed and the registry
cleared.  The tracked-listener side table (a `WeakMap`) loses its entries
for the removed popovers. -/
def navCleanup (s : PState) : PState :=
  let popoverIds := (s.doc.filter (fun e => e.classes.contains "popover")).map (fun e => e.id)
  { s with
    doc := s.doc.filter (fun e => !(e.classes.contains "popover")),
    attached := s.attached.filter (fun p => !(popoverIds.contains p.1)),
    stack := [],
    activeAnchor := none,
    liveTimers := s.liveTimers.filter (fun t => !(s.hideTimeouts.any (fun p => p.2 == t.1))),
    hideTimeouts := [] }

/-! ## Observations and invariants used by the claim statements -/

/-- Whether the element with the given id is currently visible (carries the
`active-popover` class). -/
def elemActive (s : PState) (i : String) : Bool :=
  match getElementById s.doc i with
  | some e => e.classes.contains "active-popover"
  | none => false

/-- The recorded (non-hole) stack entries at indices `≥ K`. -/
def clearedIds (s : PState) (K : Nat) : List String :=
  (s.stack.drop K).filterMap id

/-- The attached-listener set the tracker holds for a popover element. -/
def attachedSet (s : PState) (elemId : String) : Option (List Nat) :=
  (s.attached.find? (fun p => p.1 == elemId)).map (fun p => p.2)

/-- The timer bookkeeping invariant the module maintains: the registry holds
at most one entry per depth, live timeout ids are pairwise distinct and
below the id counter, every live hide timeout is the one registered at its
depth, and every registry entry's timeout is still live. -/
def TimerInv (s : PState) : Prop :=
  (s.hideTimeouts.map Prod.fst).Nodup ∧
  (s.liveTimers.map Prod.fst).Nodup ∧
  (∀ t ∈ s.liveTimers, t.1 < s.nextTimerId) ∧
  (∀ t ∈ s.liveTimers, lookupDepth s.hideTimeouts t.2 = some t.1) ∧
  (∀ p ∈ s.hideTimeouts, (p.2, p.1) ∈ s.liveTimers)

/-- At most one pending hide timeout per depth. -/
def AtMostOnePerDepth (s : PState) : Prop :=
  ∀ t1 ∈ s.liveTimers, ∀ t2 ∈ s.liveTimers, t1.2 = t2.2 → t1 = t2

/-! ## Concrete scenario states for the counterexamples, evaluations and
witnesses -/

/-- The empty module state right after a navigation. -/
def emptyState : PState :=
  { doc := [], activeAnchor := none, stack := [], hideTimeouts := [], liveTimers := [],
    nextTimerId := 0, attached := [], posRequests := [] }

/-- A cached popover for the page `/page`, visible at depth 0, whose content
holds the namespaced heading of `#sectionB`. -/
def pagePopover : Elem :=
  { id := "popover-/page", classes := ["popover", "active-popover"], depthAttr := some "0",
    zIndex := some 999,
    inner := { contentType := some "text/html", scrollTop := 0,
               children := [{ tag := "h2", idAttr := some "popover-internal-sectionB",
                              classes := [], url := none, offsetTop := 40, linkId := none }] } }

/-- The state after `/page#sectionA` was hovered: its popover record is in
the document and on the stack. -/
def pageState : PState :=
  { emptyState with doc := [pagePopover], stack := [some "popover-/page"], activeAnchor := some 4 }

/-- A top-level link to `/page#sectionB`. -/
def linkToSectionB : Anchor :=
  { linkId := 5, pathname := "/page", search := "", hash := "#sectionB", noPopover := false }

/-- A link to `/a` with no fragment. -/
def linkToA : Anchor :=
  { linkId := 1, pathname := "/a", search := "", hash := "", noPopover := false }

/-- An HTML response whose body holds one `popover-hint` element. -/
def hintResponse : Response :=
  { contentTypeHeader := some "text/html",
    body := [{ tag := "div", idAttr := none, classes := ["popover-hint"], url := none,
               offsetTop := 0, linkId := none }] }

/-- A popover element that sits in the stack both at depth 0 and at depth 1
(reachable by hovering a link to the popover's own page from inside it). -/
def selfNested : Elem :=
  { id := "popover-/self", classes := ["popover", "active-popover"], depthAttr := some "1",
    zIndex := some 1009,
    inner := { contentType := some "text/html", scrollTop := 0, children := [] } }

/-- A state whose stack records the same popover element at depths 0 and 1. -/
def aliasedState : PState :=
  { emptyState with doc := [selfNested], stack := [some "popover-/self", some "popover-/self"] }

/-- An ancestor popover whose `data-depth` is the non-numeric string `"x"`. -/
def badDepthPopover : Elem :=
  { id := "popover-/bad", classes := ["popover"], depthAttr := some "x", zIndex := none,
    inner := { contentType := none, scrollTop := 0, children := [] } }

/-- An ancestor popover at depth 2, putting a link inside it at depth 3. -/
def depthTwoPopover : Elem :=
  { id := "popover-/deep", classes := ["popover", "active-popover"], depthAttr := some "2",
    zIndex := some 1019,
    inner := { contentType := some "text/html", scrollTop := 0, children := [] } }

/-- A state with one pending hide timeout at depth 2 and one at depth 0. -/
def timedState : PState :=
  { emptyState with
    doc := [depthTwoPopover], stack := [some "popover-/deep"],
    hideTimeouts := [(2, 0), (0, 1)], liveTimers := [(0, 2), (1, 0)], nextTimerId := 2 }

/-- A top-level link to `/page` with no fragment. -/
def linkToPagePlain : Anchor :=
  { linkId := 6, pathname := "/page", search := "", hash := "", noPopover := false }

/-- A state whose document holds the malformed-depth popover and whose
registry holds a pending hide timeout at depth 0. -/
def badDepthState : PState :=
  { emptyState with
    doc := [badDepthPopover], hideTimeouts := [(0, 7)], liveTimers := [(7, 0)],
    nextTimerId := 8 }

/-! ## Helper lemmas -/

theorem length_setLength (l : List (Option α)) (n : Nat) : (setLength l n).length = n := by
  simp [setLength, List.length_take]
  omega

theorem getElem?_setLength_lt (l : List (Option String)) (n i : Nat) (h : i < n) :
    stackGet (setLength l n) i = stackGet l i := by
  unfold stackGet setLength
  rcases lt_or_ge i l.length with h2 | h2
  · rw [List.getElem?_append_left (by simp [List.length_take]; omega)]
    rw [List.getElem?_take_of_lt h]
  · rw [List.getElem?_append_right (by simp [List.length_take]; omega)]
    rw [List.getElem?_replicate]
    have : l[i]? = none := List.getElem?_eq_none h2
    simp [this, List.length_take]
    split <;> rfl

theorem contains_removeClass (cs : List String) (c : String) :
    (removeClass cs c).contains c = false := by
  simp [removeClass, List.contains_eq_any_beq]

theorem clearElem_id (ids : List String) (e : Elem) : (clearElem ids e).id = e.id := by
  unfold clearElem
  split <;> rfl

theorem clearElem_inner (ids : List String) (e : Elem) : (clearElem ids e).inner = e.inner := by
  unfold clearElem
  split <;> rfl

theorem clearElem_of_not_contained (ids : List String) (e : Elem)
    (h : ids.contains e.id = false) : clearElem ids e = e := by
  unfold clearElem
  rw [h]
  rfl

theorem find?_map_id_pres (doc : List Elem) (f : Elem → Elem) (hfid : ∀ e, (f e).id = e.id)
    (pid : String) :
    (doc.map f).find? (fun e => e.id == pid) = (doc.find? (fun e => e.id == pid)).map f := by
  induction doc with
  | nil => rfl
  | cons e rest ih =>
    simp only [List.map_cons, List.find?_cons, hfid]
    cases h : (e.id == pid) <;> simp [ih]

theorem lookupDepth_cons (p : Nat × Nat) (m : List (Nat × Nat)) (k : Nat) :
    lookupDepth (p :: m) k = if p.1 = k then some p.2 else lookupDepth m k := by
  unfold lookupDepth
  rw [List.find?_cons]
  by_cases h : p.1 = k
  · simp [h]
  · have hb : (p.1 == k) = false := by simpa using h
    simp [hb, h]

theorem lookupDepth_mapSet_self (m : List (Nat × Nat)) (k v : Nat) :
    lookupDepth (mapSet m k v) k = some v := by
  induction m with
  | nil => simp [mapSet, lookupDepth_cons, lookupDepth]
  | cons p rest ih =>
    by_cases h : p.1 = k
    · simp [mapSet, h, lookupDepth_cons]
    · simp only [mapSet, if_neg h, lookupDepth_cons, h, if_false]
      exact ih

theorem lookupDepth_mapSet_other (m : List (Nat × Nat)) (k v k2 : Nat) (h2 : k2 ≠ k) :
    lookupDepth (mapSet m k v) k2 = lookupDepth m k2 := by
  induction m with
  | nil => simp [mapSet, lookupDepth_cons, lookupDepth, Ne.symm h2]
  | cons p rest ih =>
    by_cases h : p.1 = k
    · have hp2 : ¬(p.1 = k2) := by rw [h]; exact Ne.symm h2
      simp [mapSet, h, lookupDepth_cons, Ne.symm h2, hp2]
    · simp only [mapSet, if_neg h, lookupDepth_cons]
      by_cases hp : p.1 = k2
      · simp [hp]
      · simp only [hp, if_false]
        exact ih

theorem mem_mapSet (m : List (Nat × Nat)) (k v : Nat) (p : Nat × Nat)
    (hnd : (m.map Prod.fst).Nodup) (hp : p ∈ mapSet m k v) :
    p = (k, v) ∨ (p ∈ m ∧ p.1 ≠ k) := by
  induction m with
  | nil =>
    simp only [mapSet, List.mem_singleton] at hp
    exact Or.inl hp
  | cons q rest ih =>
    simp only [List.map_cons, List.nodup_cons] at hnd
    by_cases h : q.1 = k
    · simp only [mapSet, if_pos h, List.mem_cons] at hp
      rcases hp with hp | hp
      · exact Or.inl hp
      · right
        refine ⟨List.mem_cons_of_mem _ hp, ?_⟩
        intro hk
        apply hnd.1
        rw [h, ← hk]
        exact List.mem_map_of_mem Prod.fst hp
    · simp only [mapSet, if_neg h, List.mem_cons] at hp
      rcases hp with hp | hp
      · exact Or.inr ⟨by simp [hp], by rw [hp]; exact h⟩
      · rcases ih hnd.2 hp with hc | hc
        · exact Or.inl hc
        · exact Or.inr ⟨List.mem_cons_of_mem _ hc.1, hc.2⟩

theorem fst_mem_mapSet (m : List (Nat × Nat)) (k v q : Nat)
    (hq : q ∈ (mapSet m k v).map Prod.fst) : q = k ∨ q ∈ m.map Prod.fst := by
  induction m with
  | nil =>
    simp only [mapSet, List.map_cons, List.map_nil, List.mem_singleton] at hq
    exact Or.inl hq
  | cons p rest ih =>
    by_cases h : p.1 = k
    · simp only [mapSet, if_pos h, List.map_cons, List.mem_cons] at hq
      rcases hq with hq | hq
      · exact Or.inl hq
      · exact Or.inr (by simp only [List.map_cons, List.mem_cons]; exact Or.inr hq)
    · simp only [mapSet, if_neg h, List.map_cons, List.mem_cons] at hq
      rcases hq with hq | hq
      · exact Or.inr (by simp only [List.map_cons, List.mem_cons]; exact Or.inl hq)
      · rcases ih hq with hc | hc
        · exact Or.inl hc
        · exact Or.inr (by simp only [List.map_cons, List.mem_cons]; exact Or.inr hc)

theorem nodup_fst_mapSet (m : List (Nat × Nat)) (k v : Nat)
    (hnd : (m.map Prod.fst).Nodup) : ((mapSet m k v).map Prod.fst).Nodup := by
  induction m with
  | nil => simp [mapSet]
  | cons p rest ih =>
    simp only [List.map_cons, List.nodup_cons] at hnd
    by_cases h : p.1 = k
    · simp only [mapSet, if_pos h, List.map_cons, List.nodup_cons]
      exact ⟨by rw [← h]; exact hnd.1, hnd.2⟩
    · simp only [mapSet, if_neg h, List.map_cons, List.nodup_cons]
      refine ⟨?_, ih hnd.2⟩
      intro hmem
      rcases fst_mem_mapSet rest k v p.1 hmem with hc | hc
      · exact h hc
      · exact hnd.1 hc

theorem lookupDepth_filter_out (m : List (Nat × Nat)) (dep : Nat) :
    lookupDepth (m.filter (fun p => p.1 ≠ dep)) dep = none := by
  induction m with
  | nil => rfl
  | cons p rest ih =>
    rw [List.filter_cons]
    by_cases h : p.1 = dep
    · simp only [h]
      simpa using ih
    · have : (decide (p.1 ≠ dep)) = true := by simpa using h
      rw [this]
      simp only [if_true, lookupDepth_cons, h, if_false]
      exact ih

theorem lookupDepth_filter_keep (m : List (Nat × Nat)) (dep k : Nat) (h : k ≠ dep) :
    lookupDepth (m.filter (fun p => p.1 ≠ dep)) k = lookupDepth m k := by
  induction m with
  | nil => rfl
  | cons p rest ih =>
    rw [List.filter_cons]
    by_cases hp : p.1 = dep
    · have hpk : ¬(p.1 = k) := by rw [hp]; exact fun hc => h hc.symm
      simp only [hp]
      simp only [lookupDepth_cons, hpk, if_false]
      simpa using ih
    · have : (decide (p.1 ≠ dep)) = true := by simpa using hp
      rw [this]
      simp only [if_true, lookupDepth_cons]
      by_cases hk : p.1 = k
      · simp [hk]
      · simp only [hk, if_false]
        exact ih

theorem find?_fst_of_nodup (l : List (Nat × Nat)) (tid dep : Nat)
    (hmem : (tid, dep) ∈ l) (hnd : (l.map Prod.fst).Nodup) :
    l.find? (fun t => t.1 == tid) = some (tid, dep) := by
  induction l with
  | nil => simp at hmem
  | cons t rest ih =>
    simp only [List.map_cons, List.nodup_cons] at hnd
    by_cases h : t.1 = tid
    · have ht : t = (tid, dep) := by
        rcases List.mem_cons.mp hmem with hc | hc
        · exact hc.symm
        · exact absurd (by rw [h]; exact List.mem_map_of_mem Prod.fst hc) hnd.1
      rw [List.find?_cons]
      simp [h, ht]
    · have hmem2 : (tid, dep) ∈ rest := by
        rcases List.mem_cons.mp hmem with hc | hc
        · exact absurd (by rw [← hc]) h
        · exact hc
      rw [List.find?_cons]
      have : (t.1 == tid) = false := by simpa using h
      rw [this]
      exact ih hmem2 hnd.2

theorem atMostOne_of_timerInv (s : PState) (h : TimerInv s) : AtMostOnePerDepth s := by
  intro t1 h1 t2 h2 hd
  have e1 := h.2.2.2.1 t1 h1
  have e2 := h.2.2.2.1 t2 h2
  rw [hd] at e1
  have hfst : t1.1 = t2.1 := Option.some_injective _ (e1.symm.trans e2)
  exact List.inj_on_of_nodup_map h.2.1 h1 h2 hfst

theorem lookupDepth_mem (m : List (Nat × Nat)) (d v : Nat) (h : lookupDepth m d = some v) :
    (d, v) ∈ m := by
  unfold lookupDepth at h
  cases hf : m.find? (fun p => p.1 == d) with
  | none => rw [hf] at h; simp at h
  | some q =>
    rw [hf] at h
    simp only [Option.map_some'] at h
    have hq : q.1 = d := by simpa using List.find?_some hf
    have hm : q ∈ m := List.mem_of_find?_eq_some hf
    have hqv : q = (d, v) := by
      cases q
      simp only [Prod.mk.injEq]
      exact ⟨hq, by simpa using h⟩
    rw [← hqv]
    exact hm

theorem scheduleAux (s : PState) (d : Nat) (live1 : List (Nat × Nat)) (h : TimerInv s)
    (hsub : ∀ t ∈ live1, t ∈ s.liveTimers)
    (hnotd : ∀ t ∈ live1, t.2 ≠ d)
    (hnd1 : (live1.map Prod.fst).Nodup)
    (hfrom : ∀ p ∈ s.hideTimeouts, p.1 ≠ d → (p.2, p.1) ∈ live1)
    (hshape : (scheduleHideAtDepth s d).liveTimers = live1 ++ [(s.nextTimerId, d)]) :
    TimerInv (scheduleHideAtDepth s d) := by
  obtain ⟨hreg, hlive, hfresh, hlook, hback⟩ := h
  have hmapshape : (scheduleHideAtDepth s d).hideTimeouts =
      mapSet s.hideTimeouts d s.nextTimerId := by
    simp only [scheduleHideAtDepth]
  have hnextshape : (scheduleHideAtDepth s d).nextTimerId = s.nextTimerId + 1 := by
    simp only [scheduleHideAtDepth]
  refine ⟨?_, ?_, ?_, ?_, ?_⟩
  · rw [hmapshape]
    exact nodup_fst_mapSet _ _ _ hreg
  · rw [hshape, List.map_append, List.nodup_append]
    refine ⟨hnd1, by simp, ?_⟩
    intro q hq
    obtain ⟨t, ht, rfl⟩ := List.mem_map.mp hq
    have hlt := hfresh t (hsub t ht)
    simp only [List.map_cons, List.map_nil, List.mem_singleton]
    intro hc
    rw [hc] at hlt
    exact lt_irrefl _ hlt
  · intro t ht
    rw [hshape] at ht
    rw [hnextshape]
    rcases List.mem_append.mp ht with hc | hc
    · exact Nat.lt_succ_of_lt (hfresh t (hsub t hc))
    · simp only [List.mem_singleton] at hc
      rw [hc]
      exact Nat.lt_succ_self _
  · intro t ht
    rw [hshape] at ht
    rw [hmapshape]
    rcases List.mem_append.mp ht with hc | hc
    · rw [lookupDepth_mapSet_other _ _ _ _ (hnotd t hc)]
      exact hlook t (hsub t hc)
    · simp only [List.mem_singleton] at hc
      rw [hc]
      exact lookupDepth_mapSet_self _ _ _
  · intro p hp
    rw [hmapshape] at hp
    rw [hshape]
    rcases mem_mapSet _ _ _ _ hreg hp with hc | hc
    · rw [hc]
      exact List.mem_append_right _ (by simp)
    · exact List.mem_append_left _ (hfrom p hc.1 hc.2)


/-! ## The claims -/

/-- C7 (amended): `clearDeeperPopovers K` truncates the stack's length to
`K` (extending with holes when `K` exceeds it) leaving every slot below `K`
as it was; it keeps every element in the document with its id and content
(CSS class removal only); pointwise, an element loses exactly the
`active-popover` class when one of the recorded stack entries at an index
`≥ K` references it and is untouched otherwise; consequently every element
referenced from index `≥ K` ends not visible, and any popover id not
recorded at an index `≥ K` — in particular one recorded only below `K` and
not aliased deeper — keeps its visibility. -/
theorem c7_clearFrom (s : PState) (K : Nat) :
    (clearDeeperPopovers s K).stack.length = K
  ∧ (∀ i, i < K → stackGet (clearDeeperPopovers s K).stack i = stackGet s.stack i)
  ∧ ((clearDeeperPopovers s K).doc.map Elem.id = s.doc.map Elem.id)
  ∧ ((clearDeeperPopovers s K).doc.map (fun e => e.inner) = s.doc.map (fun e => e.inner))
  ∧ (∀ (i : Nat) (e : Elem), s.doc[i]? = some e →
      (clearDeeperPopovers s K).doc[i]? = some (clearElem (clearedIds s K) e))
  ∧ (∀ e ∈ (clearDeeperPopovers s K).doc, (clearedIds s K).contains e.id = true →
      e.classes.contains "active-popover" = false)
  ∧ (∀ pid, (clearedIds s K).contains pid = false →
      elemActive (clearDeeperPopovers s K) pid = elemActive s pid) := by
  refine ⟨?_, ?_, ?_, ?_, ?_, ?_, ?_⟩
  · simp [clearDeeperPopovers, length_setLength]
  · intro i hi
    simp only [clearDeeperPopovers]
    exact getElem?_setLength_lt _ _ _ hi
  · simp only [clearDeeperPopovers, List.map_map]
    apply List.map_congr_left
    intro e _
    simp only [Function.comp_apply, clearElem_id]
  · simp only [clearDeeperPopovers, List.map_map]
    apply List.map_congr_left
    intro e _
    simp only [Function.comp_apply, clearElem_inner]
  · intro i e he
    simp only [clearDeeperPopovers, clearedIds, List.getElem?_map, he, Option.map_some']
  · intro e he hc
    simp only [clearDeeperPopovers, List.mem_map] at he
    obtain ⟨e0, hm, rfl⟩ := he
    simp only [clearedIds] at hc
    rw [clearElem_id] at hc
    unfold clearElem
    rw [hc]
    simp only [if_true]
    exact contains_removeClass _ _
  · intro pid hp
    simp only [elemActive, getElementById, clearDeeperPopovers]
    rw [find?_map_id_pres _ _ (clearElem_id _) pid]
    cases hfind : s.doc.find? (fun e => e.id == pid) with
    | none => rfl
    | some e =>
      simp only [Option.map_some']
      have heid : e.id = pid := by
        have := List.find?_some hfind
        simpa using this
      have hcon : ((s.stack.drop K).filterMap id).contains e.id = false := by
        rw [heid]
        simpa [clearedIds] using hp
      rw [clearElem_of_not_contained _ _ hcon]

/-- C7, the claim as frozen is false: in a state whose stack records the
same popover element at depth 0 and at depth 1 (reachable by hovering a
link to the popover's own page from inside it), `clearFrom 1` does affect
the popover at depth 0 — the shared element loses its visibility although
its depth-0 slot survives. -/
theorem c7_counterexample :
    stackGet aliasedState.stack 0 = some "popover-/self"
  ∧ elemActive aliasedState "popover-/self" = true
  ∧ stackGet (clearDeeperPopovers aliasedState 1).stack 0 = some "popover-/self"
  ∧ elemActive (clearDeeperPopovers aliasedState 1) "popover-/self" = false :=
  ⟨rfl, rfl, rfl, rfl⟩

/-- C8: the hide-timer registry keeps at most one pending timer per depth:
`scheduleHideAtDepth` first `clearTimeout`s the timer already registered at
that depth — after the call it is no longer live, so it can never fire —
and then registers the fresh timer at that depth; the bookkeeping invariant
(and so per-depth uniqueness) is preserved; and a live timer that fires
deletes its own depth entry from the registry and leaves the live set. -/
theorem c8_hideTimerScheduling (s : PState) (d : Nat) (h : TimerInv s) :
    TimerInv (scheduleHideAtDepth s d)
  ∧ AtMostOnePerDepth (scheduleHideAtDepth s d)
  ∧ lookupDepth (scheduleHideAtDepth s d).hideTimeouts d = some s.nextTimerId
  ∧ (∀ tid, lookupDepth s.hideTimeouts d = some tid →
      ∀ dd, (tid, dd) ∉ (scheduleHideAtDepth s d).liveTimers)
  ∧ (∀ (s2 : PState) (tid dep : Nat), (tid, dep) ∈ s2.liveTimers →
      (s2.liveTimers.map Prod.fst).Nodup →
      lookupDepth (fireHideTimer s2 tid).hideTimeouts dep = none
      ∧ (∀ dd, (tid, dd) ∉ (fireHideTimer s2 tid).liveTimers)) := by
  have hInv : TimerInv (scheduleHideAtDepth s d) := by
    obtain ⟨hreg, hlive, hfresh, hlook, hback⟩ := h
    cases htold : lookupDepth s.hideTimeouts d with
    | none =>
      refine scheduleAux s d s.liveTimers ⟨hreg, hlive, hfresh, hlook, hback⟩
        (fun t ht => ht) ?_ hlive (fun p hp _ => hback p hp) ?_
      · intro t ht hd2
        have := hlook t ht
        rw [hd2, htold] at this
        exact Option.noConfusion this
      · simp only [scheduleHideAtDepth, htold]
    | some tid =>
      refine scheduleAux s d (s.liveTimers.filter (fun t => t.1 ≠ tid))
        ⟨hreg, hlive, hfresh, hlook, hback⟩
        (fun t ht => (List.mem_filter.mp ht).1) ?_
        (((List.filter_sublist _).map Prod.fst).nodup hlive) ?_ ?_
      · intro t ht hd2
        have hmf := List.mem_filter.mp ht
        have hl := hlook t hmf.1
        rw [hd2, htold] at hl
        have : t.1 = tid := (Option.some_injective _ hl).symm
        exact absurd this (by simpa using hmf.2)
      · intro p hp hpd
        have hlv := hback p hp
        rw [List.mem_filter]
        refine ⟨hlv, ?_⟩
        simp only [decide_eq_true_eq]
        intro hpt
        have hdm : (d, tid) ∈ s.hideTimeouts := lookupDepth_mem _ _ _ htold
        have hlv2 : (tid, d) ∈ s.liveTimers := hback _ hdm
        rw [hpt] at hlv
        have heq := List.inj_on_of_nodup_map hlive hlv hlv2 rfl
        exact hpd (congrArg Prod.snd heq)
      · simp only [scheduleHideAtDepth, htold]
  refine ⟨hInv, atMostOne_of_timerInv _ hInv, ?_, ?_, ?_⟩
  · simp only [scheduleHideAtDepth]
    exact lookupDepth_mapSet_self _ _ _
  · intro tid htid dd hmem
    obtain ⟨hreg, hlive, hfresh, hlook, hback⟩ := h
    simp only [scheduleHideAtDepth, htid] at hmem
    rcases List.mem_append.mp hmem with hc | hc
    · have := (List.mem_filter.mp hc).2
      simp at this
    · simp only [List.mem_singleton, Prod.mk.injEq] at hc
      have hdm : (d, tid) ∈ s.hideTimeouts := lookupDepth_mem _ _ _ htid
      have hlv : (tid, d) ∈ s.liveTimers := hback _ hdm
      have hlt := hfresh _ hlv
      rw [hc.1] at hlt
      exact lt_irrefl _ hlt
  · intro s2 tid dep hmem hnd
    have hfind : s2.liveTimers.find? (fun t => t.1 == tid) = some (tid, dep) :=
      find?_fst_of_nodup _ _ _ hmem hnd
    constructor
    · simp only [fireHideTimer, hfind]
      exact lookupDepth_filter_out _ _
    · intro dd hdd
      simp only [fireHideTimer, hfind] at hdd
      have := (List.mem_filter.mp hdd).2
      simp at this

/-- C8 at a concrete state: scheduling at depth 0 over a registry that
already holds a timer at depth 0 registers the fresh id there. -/
theorem c8_witness :
    lookupDepth (scheduleHideAtDepth timedState 0).hideTimeouts 0 = some 2 :=
  (c8_hideTimerScheduling timedState 0 ⟨by decide, by decide, by decide, by decide, by decide⟩).2.2.1

/-- C9: after the navigation teardown runs, no element with the `popover`
marker class remains in the document, the depth stack is empty, the Active
Anchor is cleared, the hide-timeout registry is empty, and — when the timer
bookkeeping invariant held — no scheduled timeout is live any more. -/
theorem c9_navTeardown (s : PState) (h : TimerInv s) :
    (∀ e ∈ (navCleanup s).doc, e.classes.contains "popover" = false)
  ∧ (navCleanup s).stack = []
  ∧ (navCleanup s).activeAnchor = none
  ∧ (navCleanup s).hideTimeouts = []
  ∧ (navCleanup s).liveTimers = [] := by
  obtain ⟨hreg, hlive, hfresh, hlook, hback⟩ := h
  refine ⟨?_, rfl, rfl, rfl, ?_⟩
  · intro e he
    simp only [navCleanup, List.mem_filter] at he
    simpa using he.2
  · simp only [navCleanup]
    rw [List.filter_eq_nil_iff]
    intro t ht
    have hl := hlook t ht
    have hdm : (t.2, t.1) ∈ s.hideTimeouts := lookupDepth_mem _ _ _ hl
    have hany : s.hideTimeouts.any (fun p => p.2 == t.1) = true := by
      rw [List.any_eq_true]
      exact ⟨(t.2, t.1), hdm, by simp⟩
    simp [hany]


/-- C9 at a concrete state with popovers and pending timers: teardown leaves
no live timeout. -/
theorem c9_witness : (navCleanup timedState).liveTimers = [] :=
  (c9_navTeardown timedState ⟨by decide, by decide, by decide, by decide, by decide⟩).2.2.2.2

/-- C5: a pointer-enter on a link whose computed nesting depth compares
`>= MAX_POPOVER_DEPTH` returns from the synchronous prefix of the handler —
so no fetch is started, no element is created (the document is unchanged)
and the depth stack is untouched. -/
theorem c5_maxDepthStops (s : PState) (link : Anchor) (ancestors : List Elem)
    (h : jsGe (getCurrentPopoverDepth ancestors) (JsNum.int MAX_POPOVER_DEPTH) = true) :
    ∃ s2, mouseEnterHandlerSync s link ancestors = .done s2
      ∧ s2.doc = s.doc ∧ s2.stack = s.stack := by
  by_cases hn : link.noPopover
  · exact ⟨{ s with activeAnchor := some link.linkId },
      by simp [mouseEnterHandlerSync, hn], rfl, rfl⟩
  · refine ⟨cancelHideTimeoutsFromDepth { s with activeAnchor := some link.linkId }
      (getCurrentPopoverDepth ancestors), ?_, rfl, rfl⟩
    simp [mouseEnterHandlerSync, hn, h]


/-- C5 at a concrete input: a link inside a depth-2 popover computes depth 3
and hovering it leaves document and stack unchanged with no fetch. -/
theorem c5_witness :
    jsGe (getCurrentPopoverDepth [depthTwoPopover]) (JsNum.int MAX_POPOVER_DEPTH) = true
  ∧ ∃ s2, mouseEnterHandlerSync emptyState linkToA [depthTwoPopover] = .done s2
      ∧ s2.doc = emptyState.doc ∧ s2.stack = emptyState.stack :=
  ⟨by decide, c5_maxDepthStops emptyState linkToA [depthTwoPopover] (by decide)⟩

/-- C10: at depth `>= MAX_POPOVER_DEPTH` the handler is still not a pure
no-op: before returning it has recorded the link as the Active Anchor,
left document and stack alone, and removed every hide-timeout at that depth
and deeper from the registry, with the cancelled timeouts no longer live
(so they can never fire and the ancestor popovers stay visible). -/
theorem c10_maxDepthSideEffects (s : PState) (link : Anchor) (ancestors : List Elem)
    (hn : link.noPopover = false)
    (h : jsGe (getCurrentPopoverDepth ancestors) (JsNum.int MAX_POPOVER_DEPTH) = true) :
    ∃ s2, mouseEnterHandlerSync s link ancestors = .done s2
      ∧ s2.activeAnchor = some link.linkId
      ∧ s2.doc = s.doc ∧ s2.stack = s.stack
      ∧ s2.hideTimeouts = s.hideTimeouts.filter
          (fun p => !(jsGe (.int p.1) (getCurrentPopoverDepth ancestors)))
      ∧ (∀ p ∈ s.hideTimeouts, jsGe (.int p.1) (getCurrentPopoverDepth ancestors) = true →
          ∀ dd, (p.2, dd) ∉ s2.liveTimers) := by
  refine ⟨cancelHideTimeoutsFromDepth { s with activeAnchor := some link.linkId }
    (getCurrentPopoverDepth ancestors), ?_, rfl, rfl, rfl, rfl, ?_⟩
  · simp [mouseEnterHandlerSync, hn, h]
  · intro p hp hge dd hmem
    simp only [cancelHideTimeoutsFromDepth] at hmem
    have hmf := List.mem_filter.mp hmem
    have hany : (s.hideTimeouts.filter
        (fun q => jsGe (.int q.1) (getCurrentPopoverDepth ancestors))).any
        (fun c => c.2 == p.2) = true := by
      rw [List.any_eq_true]
      refine ⟨p, List.mem_filter.mpr ⟨hp, by simp [hge]⟩, by simp⟩
    have hmf2 := hmf.2
    rw [hany] at hmf2
    simp at hmf2

/-- C10 at a concrete input: hovering a depth-3 link over a state with a
pending depth-2 timer records the anchor and cancels nothing shallower. -/
theorem c10_witness :
    ∃ s2, mouseEnterHandlerSync timedState linkToA [depthTwoPopover] = .done s2
      ∧ s2.activeAnchor = some linkToA.linkId
      ∧ s2.doc = timedState.doc ∧ s2.stack = timedState.stack
      ∧ s2.hideTimeouts = timedState.hideTimeouts.filter
          (fun p => !(jsGe (.int p.1) (getCurrentPopoverDepth [depthTwoPopover])))
      ∧ (∀ p ∈ timedState.hideTimeouts,
          jsGe (.int p.1) (getCurrentPopoverDepth [depthTwoPopover]) = true →
          ∀ dd, (p.2, dd) ∉ s2.liveTimers) :=
  c10_maxDepthSideEffects timedState linkToA [depthTwoPopover] rfl (by decide)

theorem getElementById_map (doc : List Elem) (f : Elem → Elem) (hfid : ∀ e, (f e).id = e.id)
    (pid : String) :
    getElementById (doc.map f) pid = (getElementById doc pid).map f :=
  find?_map_id_pres doc f hfid pid

theorem getElementById_map_children (doc : List Elem) (f : Elem → Elem)
    (hfid : ∀ e, (f e).id = e.id) (hch : ∀ e, (f e).inner.children = e.inner.children)
    (pid : String) :
    (getElementById (doc.map f) pid).map (fun e => e.inner.children)
      = (getElementById doc pid).map (fun e => e.inner.children) := by
  rw [getElementById_map _ _ hfid]
  cases getElementById doc pid <;> simp [hch]

theorem attach_doc (s : PState) (eid : String) :
    (attachPopoverListeners s eid).doc = s.doc := by
  unfold attachPopoverListeners
  cases getElementById s.doc eid <;> rfl

theorem showPopover_ok_children (s : PState) (eid pid : String) (k : Nat) (hash : String) :
    (showPopover s eid (.int (k : Int)) hash true).2 = none
  ∧ ((getElementById (showPopover s eid (.int (k : Int)) hash true).1.doc pid).map
        (fun e => e.inner.children)
      = (getElementById s.doc pid).map (fun e => e.inner.children)) := by
  have hk : ¬((k : Int) < 0) := by omega
  constructor
  · simp only [showPopover, if_neg hk]
    split <;> rfl
  · simp only [showPopover, if_neg hk]
    by_cases hh : hash = ""
    · rw [if_pos hh]
      simp only [updateElem, clearDeeperPopovers]
      rw [getElementById_map_children _ _
          (fun e => by split <;> rfl) (fun e => by split <;> rfl) pid]
      rw [getElementById_map_children _ _
          (fun e => clearElem_id _ e) (fun e => by rw [clearElem_inner]) pid]
    · rw [if_neg hh, if_pos trivial]
      simp only [scrollToHeading, updateElem, clearDeeperPopovers]
      rw [getElementById_map_children _ _
          (fun e => by split
                       · split <;> rfl
                       · rfl)
          (fun e => by split
                       · split <;> rfl
                       · rfl) pid]
      rw [getElementById_map_children _ _
          (fun e => by split <;> rfl) (fun e => by split <;> rfl) pid]
      rw [getElementById_map_children _ _
          (fun e => clearElem_id _ e) (fun e => by rw [clearElem_inner]) pid]

/-- C1 (amended): the race guard at fetch-resume time.  If a popover record
for the normalized URL already exists when content is ready, the handler
aborts with the whole state unchanged.  If instead a different link has
become the Active Anchor, the depth stack is left unchanged but the handler
does not always leave the document unchanged: on the path where content was
produced and no record existed, the freshly built element has already been
appended to the document — hidden (only the `popover` class, never
activated) and cached for future reuse. -/
theorem c1_staleResultGuard (sr : PState) (link : Anchor) (popoverId : String)
    (targetUrl : Url) (hash : String) (depth : JsNum) (fetchResult : Option Response) :
    ((getElementById sr.doc popoverId).isSome = true →
      (mouseEnterHandlerResume sr link popoverId targetUrl hash depth fetchResult).state = sr)
  ∧ (sr.activeAnchor ≠ some link.linkId →
      (mouseEnterHandlerResume sr link popoverId targetUrl hash depth fetchResult).state.stack
        = sr.stack
      ∧ ((mouseEnterHandlerResume sr link popoverId targetUrl hash depth fetchResult).state.doc
           = sr.doc
         ∨ ∃ el, (mouseEnterHandlerResume sr link popoverId targetUrl hash depth
                    fetchResult).state.doc = sr.doc ++ [el]
             ∧ el.id = popoverId ∧ el.classes = ["popover"])) := by
  cases fetchResult with
  | none => exact ⟨fun _ => rfl, fun _ => ⟨rfl, Or.inl rfl⟩⟩
  | some response =>
    cases hh : response.contentTypeHeader with
    | none =>
      constructor
      · intro _
        simp only [mouseEnterHandlerResume, hh]
        rfl
      · intro _
        simp only [mouseEnterHandlerResume, hh]
        exact ⟨rfl, Or.inl rfl⟩
    | some header =>
      cases hdisp : dispatchContent ((jsSplit header ';').headD "") response.body targetUrl with
      | abort =>
        constructor
        · intro _
          simp only [mouseEnterHandlerResume, hh, hdisp]
          rfl
        · intro _
          simp only [mouseEnterHandlerResume, hh, hdisp]
          exact ⟨rfl, Or.inl rfl⟩
      | content children =>
        by_cases hex : (getElementById sr.doc popoverId).isSome = true
        · constructor
          · intro _
            simp only [mouseEnterHandlerResume, hh, hdisp, hex, if_true]
            rfl
          · intro _
            simp only [mouseEnterHandlerResume, hh, hdisp, hex, if_true]
            exact ⟨rfl, Or.inl rfl⟩
        · constructor
          · intro hc
            exact absurd hc hex
          · intro hanchor
            simp only [mouseEnterHandlerResume, hh, hdisp]
            rw [if_neg hex, if_pos hanchor]
            refine ⟨rfl, Or.inr ⟨_, rfl, rfl, rfl⟩⟩

/-- C2 (amended): for a response whose content-type's top-level category is
neither `image` nor `application`, the switch takes the default branch: the
body is parsed as HTML, its relative URLs rewritten against the target URL,
every element id namespaced, and exactly the `popover-hint` elements kept;
when none exist the handler returns without inserting anything, and
otherwise (clean insert conditions: no existing record, anchor current,
integral depth) the inserted popover's inner children are exactly the
extracted hint elements. -/
theorem c2_htmlDispatch (sr : PState) (link : Anchor) (popoverId : String) (targetUrl : Url)
    (hash : String) (depth : JsNum) (header : String) (body : List HtmlEl)
    (hcat1 : (jsSplit ((jsSplit header ';').headD "") '/').headD "" ≠ "image")
    (hcat2 : (jsSplit ((jsSplit header ';').headD "") '/').headD "" ≠ "application") :
    (dispatchContent ((jsSplit header ';').headD "") body targetUrl =
      if (hintElements (namespaceIds (normalizeRelativeURLs body targetUrl))).isEmpty
      then .abort
      else .content (hintElements (namespaceIds (normalizeRelativeURLs body targetUrl))))
  ∧ (hintElements (namespaceIds (normalizeRelativeURLs body targetUrl)) = [] →
      mouseEnterHandlerResume sr link popoverId targetUrl hash depth
        (some { contentTypeHeader := some header, body := body }) = .done sr)
  ∧ (∀ k : Nat, hintElements (namespaceIds (normalizeRelativeURLs body targetUrl)) ≠ [] →
      getElementById sr.doc popoverId = none →
      sr.activeAnchor = some link.linkId →
      ∃ s2, mouseEnterHandlerResume sr link popoverId targetUrl hash (.int (k : Int))
          (some { contentTypeHeader := some header, body := body }) = .done s2
        ∧ (getElementById s2.doc popoverId).map (fun e => e.inner.children)
            = some (hintElements (namespaceIds (normalizeRelativeURLs body targetUrl)))) := by
  have hdeq : dispatchContent ((jsSplit header ';').headD "") body targetUrl =
      if (hintElements (namespaceIds (normalizeRelativeURLs body targetUrl))).isEmpty
      then .abort
      else .content (hintElements (namespaceIds (normalizeRelativeURLs body targetUrl))) := by
    simp only [dispatchContent]
    rw [if_neg hcat1, if_neg hcat2]
  refine ⟨hdeq, ?_, ?_⟩
  · intro he
    have hd : dispatchContent ((jsSplit header ';').headD "") body targetUrl = .abort := by
      rw [hdeq, he]
      rfl
    simp only [mouseEnterHandlerResume, hd]
  · intro k hne hnoex hanchor
    have hie : (hintElements (namespaceIds (normalizeRelativeURLs body targetUrl))).isEmpty
        = false := by
      cases hc : hintElements (namespaceIds (normalizeRelativeURLs body targetUrl)) with
      | nil => exact absurd hc hne
      | cons a l => rfl
    have hd : dispatchContent ((jsSplit header ';').headD "") body targetUrl =
        .content (hintElements (namespaceIds (normalizeRelativeURLs body targetUrl))) := by
      rw [hdeq, hie]
      rfl
    simp only [mouseEnterHandlerResume, hd]
    rw [hnoex]
    simp only [Option.isSome_none, Bool.false_eq_true, if_false]
    rw [if_neg (by simp [hanchor])]
    obtain ⟨herr, hch⟩ := showPopover_ok_children
      { sr with
        doc := sr.doc ++
          [{ id := popoverId, classes := ["popover"], depthAttr := none, zIndex := none,
             inner := { contentType := some ((jsSplit header ';').headD ""), scrollTop := 0,
                        children := hintElements (namespaceIds
                          (normalizeRelativeURLs body targetUrl)) } }] }
      popoverId popoverId k hash
    rw [herr]
    refine ⟨_, rfl, ?_⟩
    rw [attach_doc, hch]
    unfold getElementById at hnoex ⊢
    rw [List.find?_append, hnoex]
    simp



/-- Cancelling from a `NaN` depth cancels nothing: every `>=` comparison
with `NaN` is false. -/
theorem cancel_nan (s : PState) : cancelHideTimeoutsFromDepth s .nan = s := by
  simp only [cancelHideTimeoutsFromDepth]
  have h1 : (fun p : Nat × Nat => jsGe (.int p.1) JsNum.nan) = fun p => false := by
    funext p
    rfl
  have h2 : (fun p : Nat × Nat => !jsGe (.int p.1) JsNum.nan) = fun p => true := by
    funext p
    rfl
  simp [h1, h2]

/-- C4 (amended): an absent (or empty) `data-depth` falls back to depth 0 in
every reader.  A non-numeric non-empty `data-depth` is guarded to 0 only by
`getPopoverDepth`; `getCurrentPopoverDepth` propagates `NaN` into the
hovered link's computed depth, and the popover's own enter handler then
cancels no hide timeout at all. -/
theorem c4_depthFallbacks :
    (∀ p : Elem, p.classes.contains "popover" = true → p.depthAttr = none →
        getCurrentPopoverDepth [p] = .int 1)
  ∧ (∀ e : Elem, e.depthAttr = none → getPopoverDepth e = 0)
  ∧ (∀ (e : Elem) (str : String), e.depthAttr = some str → parseIntJs str = none →
        getPopoverDepth e = 0)
  ∧ (∀ (p : Elem) (str : String), p.classes.contains "popover" = true →
        p.depthAttr = some str → str ≠ "" → parseIntJs str = none →
        getCurrentPopoverDepth [p] = .nan)
  ∧ (∀ (s : PState) (eid : String) (e : Elem) (str : String),
        getElementById s.doc eid = some e → e.depthAttr = some str → str ≠ "" →
        parseIntJs str = none → popoverMouseEnter s eid = s) := by
  refine ⟨?_, ?_, ?_, ?_, ?_⟩
  · intro p h1 h2
    have hf : [p].find? (fun q => q.classes.contains "popover") = some p := by
      rw [List.find?_cons, h1]
    simp only [getCurrentPopoverDepth, hf, h2]
    rfl
  · intro e he
    simp [getPopoverDepth, he]
  · intro e str he hp
    simp only [getPopoverDepth, he]
    by_cases hs : str = ""
    · simp [hs]
    · simp [hs, hp]
  · intro p str h1 h2 hne hp
    have hf : [p].find? (fun q => q.classes.contains "popover") = some p := by
      rw [List.find?_cons, h1]
    simp only [getCurrentPopoverDepth, hf, h2]
    have ho : jsOrStr (some str) "0" = str := by simp [jsOrStr, hne]
    rw [ho]
    simp [parseIntToJs, hp, jsAdd]
  · intro s eid e str hget hda hne hp
    simp only [popoverMouseEnter, hget, hda]
    have ho : jsOrStr (some str) "0" = str := by simp [jsOrStr, hne]
    rw [ho]
    have hn : parseIntToJs str = .nan := by simp [parseIntToJs, hp]
    rw [hn]
    exact cancel_nan s

/-- C4, the claim as frozen is false: with `data-depth = "x"` the computed
link depth is `NaN` — not a number at all, rather than the claimed 0 — and
the popover's enter handler is the identity even though a hide timeout at
depth 0 is pending (treating the depth as 0 would cancel it). -/
theorem c4_counterexample :
    getCurrentPopoverDepth [badDepthPopover] = JsNum.nan
  ∧ (∀ n : Int, JsNum.nan ≠ JsNum.int n)
  ∧ popoverMouseEnter badDepthState "popover-/bad" = badDepthState :=
  ⟨rfl, fun _ h => JsNum.noConfusion h, rfl⟩

/-- C4 at a concrete input: the malformed-depth popover's enter handler
leaves the state untouched. -/
theorem c4_witness :
    popoverMouseEnter badDepthState "popover-/bad" = badDepthState :=
  (c4_depthFallbacks).2.2.2.2 badDepthState "popover-/bad" badDepthPopover "x"
    (by decide) rfl (by decide) (by decide)

/-- C3, the code bug evaluated: hovering `/page#sectionB` while the popover
record for `/page` already exists (created from `/page#sectionA`) throws a
`ReferenceError` — `showPopover` reads the `const popoverInner` of the fetch
path, which has not executed on the reuse path (temporal dead zone) — so the
inner container is never scrolled to the `popover-internal-sectionB`
heading (its scrollTop stays 0) and the listener re-attachment is skipped,
although the element was already made visible. -/
theorem c3_codeBugEval :
    ∃ s2, mouseEnterHandlerSync pageState linkToSectionB [] = .thrown s2 .referenceError
      ∧ (getElementById s2.doc "popover-/page").map (fun e => e.inner.scrollTop) = some 0
      ∧ attachedSet s2 "popover-/page" = none
      ∧ elemActive s2 "popover-/page" = true :=
  ⟨_, rfl, by decide, by decide, by decide⟩

/-- C6, evaluated on both fragment shapes: re-hovering the same normalized
URL never reaches the fetch (the handler ends in `done`/`thrown` before it,
reusing the element found by its id).  With an empty fragment the reuse path
completes: the element is made visible, repositioned, and its listener
attachment re-run.  With a non-empty fragment the temporal-dead-zone
`ReferenceError` of the reuse path fires after the element was made visible
and repositioned but before `attachPopoverListeners`, so the claimed
re-attachment does not happen. -/
theorem c6_codeBugEval :
    (∃ s2, mouseEnterHandlerSync pageState linkToPagePlain [] = .done s2
      ∧ attachedSet s2 "popover-/page" = some []
      ∧ elemActive s2 "popover-/page" = true
      ∧ s2.posRequests = pageState.posRequests ++ ["popover-/page"]
      ∧ s2.doc.map Elem.id = pageState.doc.map Elem.id)
  ∧ (∃ s3, mouseEnterHandlerSync pageState linkToSectionB [] = .thrown s3 .referenceError
      ∧ attachedSet s3 "popover-/page" = none
      ∧ elemActive s3 "popover-/page" = true
      ∧ s3.posRequests = pageState.posRequests ++ ["popover-/page"]) :=
  ⟨⟨_, rfl, by decide, by decide, by decide, by decide⟩,
   ⟨_, rfl, by decide, by decide, by decide⟩⟩

/-- C1, the claim as frozen is false: with the Active Anchor pointing at a
different link (id 2) when the fetched content is ready, the handler still
appends the new popover element to the document — the stale-result discard
does not leave the document unchanged. -/
theorem c1_counterexample :
    { emptyState with activeAnchor := some 2 }.activeAnchor ≠ some linkToA.linkId
  ∧ (mouseEnterHandlerResume { emptyState with activeAnchor := some 2 } linkToA "popover-/a"
      { pathname := "/a", search := "", hash := "" } "" (.int 0) (some hintResponse)).state.doc
      ≠ { emptyState with activeAnchor := some 2 }.doc := by
  constructor
  · decide
  · decide

/-- C1 at a concrete input: a record for the URL already exists at resume
time, and the handler returns with the state untouched. -/
theorem c1_witness :
    (mouseEnterHandlerResume pageState linkToA "popover-/page"
      { pathname := "/page", search := "", hash := "" } "" (.int 0)
      (some hintResponse)).state = pageState :=
  (c1_staleResultGuard pageState linkToA "popover-/page"
    { pathname := "/page", search := "", hash := "" } "" (.int 0) (some hintResponse)).1
    (by decide)

/-- C2, the claim as frozen is false: `application/json` is neither
`image/*` nor `application/pdf`, yet the handler does not parse the body as
HTML and does not abort on missing hint elements — it inserts a popover
with an empty inner container. -/
theorem c2_counterexample :
    ∃ s2, mouseEnterHandlerResume emptyState linkToA "popover-/a"
        { pathname := "/a", search := "", hash := "" } "" (.int 0)
        (some { contentTypeHeader := some "application/json", body := [] }) = .done s2
      ∧ s2.doc ≠ emptyState.doc
      ∧ (getElementById s2.doc "popover-/a").map (fun e => e.inner.children) = some [] :=
  ⟨_, rfl, by decide, by decide⟩

/-- C2 at a concrete input: a `text/plain` response whose parsed body has no
`popover-hint` element inserts nothing. -/
theorem c2_witness :
    mouseEnterHandlerResume emptyState linkToA "popover-/a"
      { pathname := "/a", search := "", hash := "" } "" (.int 0)
      (some { contentTypeHeader := some "text/plain", body := [] }) = .done emptyState :=
  (c2_htmlDispatch emptyState linkToA "popover-/a" { pathname := "/a", search := "", hash := "" }
    "" (.int 0) "text/plain" [] (by decide) (by decide)).2.1 (by decide)

end Popover
